import Mathlib

/-!
# Verification of the VibesFlow chunker's VRF raffle and chunk lifecycle

Shallow embedding of `workers-index/chunker/index.js`: the HMAC-SHA256
based raffle (`performSecureVRFRaffle`), the per-tick chunk processing
(`processChunk`), participant joins (`handleParticipantJoin`), session
finalization (`handleChunkFinalize` / `createFinalPartialChunk`) and the
asynchronous storage upload (`processSynapseUploadAsync`).

Bytes are `Nat` below 256, 32-bit words are `Nat` reduced modulo `2 ^ 32`
explicitly.  Strings are converted to bytes by code-point (all inputs in
the repository are ASCII, matching Node's UTF-8 encoding on them).
-/

set_option maxRecDepth 100000

namespace VibesFlow

/-! ## Byte and word helpers -/

/-- UTF-8 bytes of an ASCII string (code points; faithful for ASCII input). -/
def strBytes (s : String) : List Nat :=
  s.toList.map Char.toNat

/-- Big-endian byte rendering of `v` on `n` bytes (most significant first). -/
def toBytesBE : Nat → Nat → List Nat
  | 0, _ => []
  | n + 1, v => toBytesBE n (v / 256) ++ [v % 256]

/-- `Buffer.readUInt32BE(0)`: the first four bytes as a big-endian u32. -/
def readUInt32BE (bytes : List Nat) : Nat :=
  bytes.getD 0 0 * 16777216 + bytes.getD 1 0 * 65536 +
    bytes.getD 2 0 * 256 + bytes.getD 3 0

def hexDigit (n : Nat) : Char :=
  List.getD ("0123456789abcdef".toList) n '0'

/-- `Buffer.toString('hex')`: lowercase hex rendering of a byte list. -/
def toHex (bytes : List Nat) : String :=
  String.mk (bytes.foldr (fun b acc => hexDigit (b / 16) :: hexDigit (b % 16) :: acc) [])

/-! ## SHA-256 (FIPS 180-4), executable over `Nat` -/

def w32 : Nat := 4294967296

def rotr (n x : Nat) : Nat :=
  ((x >>> n) ||| (x <<< (32 - n))) % w32

def shaCh (x y z : Nat) : Nat :=
  (x &&& y) ^^^ ((x ^^^ 4294967295) &&& z)

def shaMaj (x y z : Nat) : Nat :=
  (x &&& y) ^^^ (x &&& z) ^^^ (y &&& z)

def bigSigma0 (x : Nat) : Nat := rotr 2 x ^^^ rotr 13 x ^^^ rotr 22 x
def bigSigma1 (x : Nat) : Nat := rotr 6 x ^^^ rotr 11 x ^^^ rotr 25 x
def smallSigma0 (x : Nat) : Nat := rotr 7 x ^^^ rotr 18 x ^^^ (x >>> 3)
def smallSigma1 (x : Nat) : Nat := rotr 17 x ^^^ rotr 19 x ^^^ (x >>> 10)

/-- The 64 SHA-256 round constants, in decimal. -/
def sha256K : List Nat :=
  [1116352408, 1899447441, 3049323471, 3921009573, 961987163,
   1508970993, 2453635748, 2870763221, 3624381080, 310598401,
   607225278, 1426881987, 1925078388, 2162078206, 2614888103,
   3248222580, 3835390401, 4022224774, 264347078, 604807628,
   770255983, 1249150122, 1555081692, 1996064986, 2554220882,
   2821834349, 2952996808, 3210313671, 3336571891, 3584528711,
   113926993, 338241895, 666307205, 773529912, 1294757372,
   1396182291, 1695183700, 1986661051, 2177026350, 2456956037,
   2730485921, 2820302411, 3259730800, 3345764771, 3516065817,
   3600352804, 4094571909, 275423344, 430227734, 506948616,
   659060556, 883997877, 958139571, 1322822218, 1537002063,
   1747873779, 1955562222, 2024104815, 2227730452, 2361852424,
   2428436474, 2756734187, 3204031479, 3329325298]

/-- The eight SHA-256 initial hash values, in decimal. -/
def sha256Init : List Nat :=
  [1779033703, 3144134277, 1013904242, 2773480762,
   1359893119, 2600822924, 528734635, 1541459225]

/-- Next word of the message schedule; `w` holds earlier words, most recent
first, so `w[1]` is `w_{t-2}`, `w[6]` is `w_{t-7}`, `w[14]` is `w_{t-15}`
and `w[15]` is `w_{t-16}`. -/
def schedNext (w : List Nat) : Nat :=
  (smallSigma1 (w.getD 1 0) + w.getD 6 0 + smallSigma0 (w.getD 14 0) + w.getD 15 0) % w32

/-- Extend a reversed 16-word block by `n` schedule words and return the
full schedule in order. -/
def schedule : Nat → List Nat → List Nat
  | 0, w => w.reverse
  | n + 1, w => schedule n (schedNext w :: w)

/-- One SHA-256 compression round over state `[a, b, c, d, e, f, g, h]`. -/
def shaRound (s : List Nat) (kw : Nat × Nat) : List Nat :=
  match s with
  | [a, b, c, d, e, f, g, h] =>
    let t1 := (h + bigSigma1 e + shaCh e f g + kw.1 + kw.2) % w32
    let t2 := (bigSigma0 a + shaMaj a b c) % w32
    [(t1 + t2) % w32, a, b, c, (d + t1) % w32, e, f, g]
  | other => other

/-- Compress one 16-word block into the running hash state. -/
def sha256Compress (h : List Nat) (block : List Nat) : List Nat :=
  let w := schedule 48 block.reverse
  let s := (sha256K.zip w).foldl shaRound h
  (h.zip s).map (fun p => (p.1 + p.2) % w32)

/-- Merkle-Damgard padding: `0x80`, zeros to 56 mod 64, 8-byte bit length. -/
def padMessage (msg : List Nat) : List Nat :=
  let zeros := (64 - ((msg.length + 9) % 64)) % 64
  msg ++ [0x80] ++ List.replicate zeros 0 ++ toBytesBE 8 (msg.length * 8)

/-- Group bytes into big-endian 32-bit words. -/
def bytesToWords : List Nat → List Nat
  | a :: b :: c :: d :: rest =>
      (a * 16777216 + b * 65536 + c * 256 + d) :: bytesToWords rest
  | _ => []

/-- Split a word list into 16-word blocks, given the number of blocks. -/
def toBlocks : Nat → List Nat → List (List Nat)
  | 0, _ => []
  | n + 1, ws => ws.take 16 :: toBlocks n (ws.drop 16)

/-- SHA-256 of a byte list, as a 32-byte list. -/
def sha256 (msg : List Nat) : List Nat :=
  let padded := padMessage msg
  let blocks := toBlocks (padded.length / 64) (bytesToWords padded)
  let h := blocks.foldl sha256Compress sha256Init
  h.foldr (fun wd acc => toBytesBE 4 wd ++ acc) []

/-- HMAC-SHA256 (RFC 2104) of `msg` under `key`, both byte lists. -/
def hmacSHA256 (key msg : List Nat) : List Nat :=
  let k0 := if 64 < key.length then sha256 key else key
  let k := k0 ++ List.replicate (64 - k0.length) 0
  let inner := sha256 (k.map (fun b => b ^^^ 0x36) ++ msg)
  sha256 (k.map (fun b => b ^^^ 0x5c) ++ inner)

/-- FIPS 180-4 test vector: SHA-256 of `"abc"`. -/
theorem sha256_abc :
    toHex (sha256 (strBytes "abc")) =
      "ba7816bf8f01cfea414140de5dae2223b00361a396177a9cb410ff61f20015ad" := by
  decide

/-- RFC 2104-style test vector for HMAC-SHA256. -/
theorem hmacSHA256_fox :
    toHex (hmacSHA256 (strBytes "key")
        (strBytes "The quick brown fox jumps over the lazy dog")) =
      "f7bc83f430538424b13298e6aa6fb143ef4d59a14946175997479dbc2d1a3cd8" := by
  decide

/-! ## Association-list state

The chunker holds its per-session state in JS `Map`s
(`activeStreams`, `participants`, `vrfSeeds`, `chunkTimers`); a JS `Set`
keeps insertion order and ignores duplicate adds.  We model `Map`s as
association lists and `Set`s as duplicate-free insertion-ordered lists. -/

/-- `Map.get`: first binding of `k`, if any. -/
def alookup {α : Type} [DecidableEq α] {β : Type} (k : α) :
    List (α × β) → Option β
  | [] => none
  | (a, b) :: rest => if a = k then some b else alookup k rest

/-- `Map.set`: replace the binding of `k`, or append it. -/
def aset {α : Type} [DecidableEq α] {β : Type} (k : α) (v : β) :
    List (α × β) → List (α × β)
  | [] => [(k, v)]
  | (a, b) :: rest => if a = k then (k, v) :: rest else (a, b) :: aset k v rest

/-- `Map.delete`: drop the binding of `k`.  JS `Map` keys are unique, so
removing every pair with key `k` is the faithful model. -/
def adel {α : Type} [DecidableEq α] {β : Type} (k : α)
    (l : List (α × β)) : List (α × β) :=
  l.filter (fun p => p.1 ≠ k)

/-- `Set.add`: append unless already present (insertion order preserved). -/
def setAdd (x : String) (s : List String) : List String :=
  if x ∈ s then s else s ++ [x]

/-! ## The VRF raffle (`performSecureVRFRaffle`)

```js
const vrfSeed = this.vrfSeeds.get(rtaId);
if (!vrfSeed) throw new Error('VRF seed not found for stream');
const hmac = crypto.createHmac('sha256', vrfSeed);
hmac.update(chunkId);
hmac.update(participants.join('|'));
hmac.update(Date.now().toString());
const vrfOutput = hmac.digest();
const vrfProof = vrfOutput.toString('hex');
const randomValue = vrfOutput.readUInt32BE(0);
const winnerIndex = randomValue % participants.length;
const winner = participants[winnerIndex];
return { winner, vrfProof, participants: participants.length, randomValue };
```

`Date.now()` is passed in as the explicit argument `now`.  For an empty
`participants`, JS computes `randomValue % 0 = NaN` and
`participants[NaN] = undefined`; the model's `List.get?` likewise returns
`none` there, and `none` plays the role of `undefined`. -/

inductive RaffleError where
  | seedNotFound
deriving DecidableEq, Repr

structure RaffleResult where
  winner : Option String
  vrfProof : String
  participants : Nat
  randomValue : Nat
deriving DecidableEq, Repr

/-- The HMAC digest the raffle computes for the given inputs. -/
def raffleDigest (vrfSeed chunkId : String) (participants : List String)
    (now : Nat) : List Nat :=
  hmacSHA256 (strBytes vrfSeed)
    (strBytes chunkId ++ strBytes (String.intercalate "|" participants) ++
      strBytes (toString now))

def performSecureVRFRaffle (vrfSeeds : List (String × String))
    (rtaId chunkId : String) (participants : List String) (now : Nat) :
    Except RaffleError RaffleResult :=
  match alookup rtaId vrfSeeds with
  | none => .error .seedNotFound
  | some vrfSeed =>
    let vrfOutput := raffleDigest vrfSeed chunkId participants now
    let randomValue := readUInt32BE vrfOutput
    .ok { winner := participants.get? (randomValue % participants.length)
        , vrfProof := toHex vrfOutput
        , participants := participants.length
        , randomValue := randomValue }

deriving instance DecidableEq for Except

/-- The winner field of a raffle result, `none` when the raffle threw. -/
def winnerOfResult : Except RaffleError RaffleResult → Option (Option String)
  | .ok r => some r.winner
  | .error _ => none

/-- The vrfProof field of a raffle result, `none` when the raffle threw. -/
def proofOfResult : Except RaffleError RaffleResult → Option String
  | .ok r => some r.vrfProof
  | .error _ => none

/-! ## Chunker state (`VibesFlowChunker` fields used by the claims)

```js
const streamState = { rtaId, config, audioFilePath, startTime: Date.now(),
                      currentChunk: 0, chunks: [], isActive: true };
this.activeStreams.set(rtaId, streamState);
this.participants.set(rtaId, new Set());
this.vrfSeeds.set(rtaId, vrfSeed);
this.startChunkTimer(rtaId);
```

`chunks` entries are the objects pushed by `processChunk`:
`{ chunkId, timestamp, owner, participantCount }`.  The model adds a ghost
field `seq` recording the integer `streamState.currentChunk` from which
`chunkId` was built (`chunkId = rtaId + "_chunk_" + seq`); the invariant
`chunkId = chunkIdOf rtaId seq` ties it to the source record. -/

/-- The chunk id string `processChunk` builds for sequence index `i`. -/
def chunkIdOf (rtaId : String) (i : Nat) : String :=
  rtaId ++ "_chunk_" ++ toString i

structure ChunkRecord where
  chunkId : String
  timestamp : Nat
  owner : Option String
  participantCount : Nat
  /-- ghost: the `currentChunk` value used to build `chunkId`. -/
  seq : Nat
deriving DecidableEq, Repr

structure StreamState where
  rtaId : String
  startTime : Nat
  currentChunk : Nat
  chunks : List ChunkRecord
  isActive : Bool
  /-- whether an audio source (file path or live stream) is attached. -/
  hasAudioSource : Bool
deriving DecidableEq, Repr

structure ChunkerState where
  activeStreams : List (String × StreamState)
  participants : List (String × List String)
  vrfSeeds : List (String × String)
  /-- session ids with a live `setInterval` handle in `chunkTimers`. -/
  chunkTimers : List String
deriving DecidableEq, Repr

/-- `handleChunkStart`'s state effect: fresh stream state, empty
participant set, seed stored, timer started. -/
def startStream (s : ChunkerState) (rtaId vrfSeed : String) (now : Nat)
    (hasAudio : Bool) : ChunkerState :=
  { activeStreams := aset rtaId
      { rtaId := rtaId, startTime := now, currentChunk := 0, chunks := []
      , isActive := true, hasAudioSource := hasAudio } s.activeStreams
  , participants := aset rtaId [] s.participants
  , vrfSeeds := aset rtaId vrfSeed s.vrfSeeds
  , chunkTimers := setAdd rtaId s.chunkTimers }

/-! ## Ticks (`processChunk`)

`processChunk`'s body is one `try { ... } catch (error) { console.error }`:
every failure of a collaborator call is absorbed and only logged, so the
model is a total function returning the new state plus an observable
outcome.  The collaborator calls that can fail — `createAudioChunk`,
`recordChunkOwnership` (a ledger call), `saveChunkForDispatcher` (file
writes) — are driven by an oracle. -/

structure TickOracle where
  audioOk : Bool
  recordOk : Bool
  saveOk : Bool
deriving DecidableEq, Repr

inductive TickOutcome where
  /-- `!streamState || !streamState.isActive`: early return. -/
  | noStream
  /-- `createAudioChunk` threw; caught by the outer catch. -/
  | audioFailed
  /-- `participantsList.length === 0`: raffle skipped, early return. -/
  | skippedNoParticipants
  /-- `performSecureVRFRaffle` threw (seed missing); caught. -/
  | raffleFailed
  /-- `recordChunkOwnership` threw; caught. -/
  | recordFailed
  /-- `saveChunkForDispatcher` threw; caught. -/
  | saveFailed
  /-- chunk pushed and `currentChunk` incremented. -/
  | processed
deriving DecidableEq, Repr

/-- The locals `processChunk` computes before its first `await`
(`chunkId` embeds the `currentChunk` value read at that moment; `seq` is
that value itself). -/
structure PendingChunk where
  chunkId : String
  seq : Nat
deriving DecidableEq, Repr

/-- `processChunk` from tick fire through `await createAudioChunk`: the
stream lookup, the `isActive` check, the `chunkId` computation and the
audio read.  `.error out` is an early exit with outcome `out`. -/
def processChunkPhase1 (s : ChunkerState) (rtaId : String) (audioOk : Bool) :
    Except TickOutcome PendingChunk :=
  match alookup rtaId s.activeStreams with
  | none => .error .noStream
  | some streamState =>
    if ¬streamState.isActive then .error .noStream
    else if ¬(audioOk ∧ streamState.hasAudioSource) then .error .audioFailed
    else .ok { chunkId := chunkIdOf rtaId streamState.currentChunk
             , seq := streamState.currentChunk }

/-- `Array.from(this.participants.get(rtaId) || [])`: the point-in-time
participant snapshot. -/
def snapshotOf (s : ChunkerState) (rtaId : String) : List String :=
  (alookup rtaId s.participants).getD []

/-- `streamState.chunks.push(c); streamState.currentChunk++`. -/
def pushChunk (st : StreamState) (c : ChunkRecord) : StreamState :=
  { st with chunks := st.chunks ++ [c]
          , currentChunk := st.currentChunk + 1 }

/-- `processChunk` from the participant snapshot
(`Array.from(this.participants.get(rtaId))`) to the end: raffle, ledger
record, dispatcher save, and the `chunks.push` / `currentChunk++` pair.
It runs against the state current when the audio `await` resumes. -/
def processChunkPhase2 (s : ChunkerState) (rtaId : String) (p : PendingChunk)
    (now : Nat) (o : TickOracle) : ChunkerState × TickOutcome :=
  match alookup rtaId s.activeStreams with
  | none => (s, .noStream)
  | some streamState =>
    if (snapshotOf s rtaId).length = 0 then (s, .skippedNoParticipants)
    else
      match performSecureVRFRaffle s.vrfSeeds rtaId p.chunkId
          (snapshotOf s rtaId) now with
      | .error _ => (s, .raffleFailed)
      | .ok raffleResult =>
        if ¬o.recordOk then (s, .recordFailed)
        else if ¬o.saveOk then (s, .saveFailed)
        else
          ({ s with
              activeStreams := aset rtaId
                (pushChunk streamState
                  { chunkId := p.chunkId, timestamp := now
                   , owner := raffleResult.winner
                   , participantCount := (snapshotOf s rtaId).length
                   , seq := p.seq }) s.activeStreams },
            .processed)

/-- One tick of the 60-second timer for `rtaId` at wall-clock `now`, with
collaborator outcomes `o` — the uninterrupted run of `processChunk`:
phase 1 immediately followed by phase 2 on the same state. -/
def processChunk (s : ChunkerState) (rtaId : String) (now : Nat)
    (o : TickOracle) : ChunkerState × TickOutcome :=
  match processChunkPhase1 s rtaId o.audioOk with
  | .error out => (s, out)
  | .ok p => processChunkPhase2 s rtaId p now o

/-! ## Participant joins (`handleParticipantJoin`)

```js
const participants = this.participants.get(rtaId);
if (!participants) return res.status(404).json({ error: 'Stream not found' });
participants.add(accountId);
res.json({ success: true, ..., totalParticipants: participants.size });
```
-/

inductive JoinResult where
  | notFound
  | joined (totalParticipants : Nat)
deriving DecidableEq, Repr

def handleParticipantJoin (s : ChunkerState) (rtaId accountId : String) :
    ChunkerState × JoinResult :=
  match alookup rtaId s.participants with
  | none => (s, .notFound)
  | some ps =>
    ({ s with participants := aset rtaId (setAdd accountId ps) s.participants },
      .joined (setAdd accountId ps).length)

/-! ## Session finalization

`handleChunkFinalize`:
```js
const streamState = this.activeStreams.get(rtaId);
if (!streamState) return res.status(404)...;
const timer = this.chunkTimers.get(rtaId);
if (timer) { clearInterval(timer); this.chunkTimers.delete(rtaId); }
if (forceFinalChunk) {
  const elapsed = Date.now() - streamState.startTime;
  const fullChunks = Math.floor(elapsed / this.chunkDurationMs);
  const finalDuration = elapsed - (fullChunks * this.chunkDurationMs);
  if (finalDuration > 1000) await this.createFinalPartialChunk(rtaId, finalDuration);
}
streamState.isActive = false;
this.activeStreams.delete(rtaId); this.participants.delete(rtaId);
this.vrfSeeds.delete(rtaId);
res.json({ success: true, rtaId, totalChunks: streamState.chunks.length, ... });
```

`createFinalPartialChunk` wraps its whole body in `try { ... } catch
(error) { console.error(...); }` and never rethrows; it mutates no
in-memory chunker state (it records ownership in the contract and writes
files, both external).  Its observable effect is reported as an
`Option FinalChunkReport` ghost value. -/

def chunkDurationMs : Nat := 60000

structure FinalChunkReport where
  chunkId : String
  durationMs : Nat
  /-- raffle winner, when a raffle ran and succeeded. -/
  raffleWinner : Option String
  /-- whether ownership recording and the dispatcher save both succeeded. -/
  recorded : Bool
deriving DecidableEq, Repr

/-- The chunk id `createFinalPartialChunk` builds. -/
def finalChunkIdOf (rtaId : String) (i : Nat) : String :=
  chunkIdOf rtaId i ++ "_final"

def createFinalPartialChunk (s : ChunkerState) (rtaId : String)
    (duration now : Nat) (o : TickOracle) : Option FinalChunkReport :=
  match alookup rtaId s.activeStreams with
  | none => none
  | some streamState =>
    if ¬(o.audioOk ∧ streamState.hasAudioSource) then none
    else if (snapshotOf s rtaId).length = 0 then
      some { chunkId := finalChunkIdOf rtaId streamState.currentChunk
           , durationMs := duration, raffleWinner := none, recorded := false }
    else
      match performSecureVRFRaffle s.vrfSeeds rtaId
          (finalChunkIdOf rtaId streamState.currentChunk)
          (snapshotOf s rtaId) now with
      | .error _ =>
        some { chunkId := finalChunkIdOf rtaId streamState.currentChunk
             , durationMs := duration, raffleWinner := none, recorded := false }
      | .ok raffleResult =>
        some { chunkId := finalChunkIdOf rtaId streamState.currentChunk
             , durationMs := duration
             , raffleWinner := raffleResult.winner
             , recorded := o.recordOk && o.saveOk }

inductive FinalizeResult where
  | notFound
  | finalized (totalChunks : Nat) (finalChunk : Option FinalChunkReport)
deriving DecidableEq, Repr

/-- `clearInterval(timer); this.chunkTimers.delete(rtaId)`. -/
def stopTimer (s : ChunkerState) (rtaId : String) : ChunkerState :=
  { s with chunkTimers := s.chunkTimers.filter (· ≠ rtaId) }

/-- `elapsed - Math.floor(elapsed / chunkDurationMs) * chunkDurationMs`. -/
def finalDurationOf (elapsed : Nat) : Nat :=
  elapsed - elapsed / chunkDurationMs * chunkDurationMs

/-- The three `Map.delete` calls at the end of `handleChunkFinalize`. -/
def purgeSession (s : ChunkerState) (rtaId : String) : ChunkerState :=
  { s with activeStreams := adel rtaId s.activeStreams
         , participants := adel rtaId s.participants
         , vrfSeeds := adel rtaId s.vrfSeeds }

def handleChunkFinalize (s : ChunkerState) (rtaId : String)
    (forceFinalChunk : Bool) (now : Nat) (o : TickOracle) :
    ChunkerState × FinalizeResult :=
  match alookup rtaId s.activeStreams with
  | none => (s, .notFound)
  | some streamState =>
    (purgeSession (stopTimer s rtaId) rtaId,
      .finalized streamState.chunks.length
        (if forceFinalChunk then
          if 1000 < finalDurationOf (now - streamState.startTime) then
            createFinalPartialChunk (stopTimer s rtaId) rtaId
              (finalDurationOf (now - streamState.startTime)) now o
          else none
        else none))

/-- The ghost trailing-chunk report of a finalize call. -/
def finalReportOf : ChunkerState × FinalizeResult → Option FinalChunkReport
  | (_, .finalized _ report) => report
  | (_, .notFound) => none

/-- Whether a finalize call answered with the success payload. -/
def finalizeSucceeded : ChunkerState × FinalizeResult → Bool
  | (_, .finalized _ _) => true
  | (_, .notFound) => false

/-! ## The asynchronous storage upload (`processSynapseUploadAsync`)

The whole body is one `try`/`catch`; every failing step lands in
```js
} catch (error) {
  uploadState.status = 'failed';
  uploadState.error = error.message;
}
```
and a missing upload id returns without touching anything.  The successful
path ends with `status = 'completed'` and the CommP content id stored. -/

structure UploadState where
  status : String
  error : Option String
  filecoinCid : Option String
deriving DecidableEq, Repr

inductive UploadStep where
  /-- `checkAndMaintainUSDFCBalance` threw. -/
  | balanceFail (msg : String)
  /-- `createStorage` threw. -/
  | storageFail (msg : String)
  /-- `preflightUpload` threw. -/
  | preflightFail (msg : String)
  /-- `storageService.upload` threw. -/
  | uploadThrew (msg : String)
  /-- `upload` returned without a CommP. -/
  | uploadNoCommp
  /-- `upload` returned `commp`. -/
  | uploadOk (commp : String)
deriving DecidableEq, Repr

/-- The error message a failing step raises, `none` for the success step. -/
def stepError : UploadStep → Option String
  | .balanceFail m | .storageFail m | .preflightFail m | .uploadThrew m =>
    some m
  | .uploadNoCommp => some "Synapse upload failed - no CommP returned"
  | .uploadOk _ => none

/-- The net effect of the upload body on one upload record: the `catch`
for any failing step, the completion assignments for the success path. -/
def applyUploadStep (uploadState : UploadState) (step : UploadStep) :
    UploadState :=
  match stepError step, step with
  | some m, _ => { uploadState with status := "failed", error := some m }
  | none, .uploadOk commp =>
    { uploadState with status := "completed", filecoinCid := some commp }
  | none, _ => uploadState

def processSynapseUploadAsync (uploads : List (String × UploadState))
    (uploadId : String) (step : UploadStep) : List (String × UploadState) :=
  match alookup uploadId uploads with
  | none => uploads
  | some uploadState =>
    aset uploadId (applyUploadStep uploadState step) uploads

/-! ## Event traces

Reachable chunker states: any interleaving of session starts, joins,
timer ticks and finalize calls, across arbitrary session ids. -/

inductive Event where
  | start (rtaId vrfSeed : String) (now : Nat) (hasAudio : Bool)
  | join (rtaId accountId : String)
  | tick (rtaId : String) (now : Nat) (o : TickOracle)
  | finalize (rtaId : String) (force : Bool) (now : Nat) (o : TickOracle)
deriving DecidableEq, Repr

def applyEvent (s : ChunkerState) : Event → ChunkerState
  | .start rtaId vrfSeed now hasAudio => startStream s rtaId vrfSeed now hasAudio
  | .join rtaId accountId => (handleParticipantJoin s rtaId accountId).1
  | .tick rtaId now o => (processChunk s rtaId now o).1
  | .finalize rtaId force now o => (handleChunkFinalize s rtaId force now o).1

def emptyChunker : ChunkerState :=
  { activeStreams := [], participants := [], vrfSeeds := [], chunkTimers := [] }

def runEvents (es : List Event) : ChunkerState :=
  es.foldl applyEvent emptyChunker

/-- The chunk records of session `rtaId` in state `s`. -/
def chunksOf (s : ChunkerState) (rtaId : String) : List ChunkRecord :=
  ((alookup rtaId s.activeStreams).map StreamState.chunks).getD []

/-! ## Association-list lemmas -/

theorem alookup_aset_self {α : Type} [DecidableEq α] {β : Type} (k : α)
    (v : β) (l : List (α × β)) : alookup k (aset k v l) = some v := by
  induction l with
  | nil => simp [aset, alookup]
  | cons p rest ih =>
    rcases p with ⟨a, b⟩
    by_cases h : a = k
    · simp [aset, alookup, h]
    · simp [aset, alookup, h, ih]

theorem alookup_aset_ne {α : Type} [DecidableEq α] {β : Type} {k k' : α}
    (v : β) (l : List (α × β)) (h : k' ≠ k) :
    alookup k' (aset k v l) = alookup k' l := by
  induction l with
  | nil => simp [aset, alookup, Ne.symm h]
  | cons p rest ih =>
    rcases p with ⟨a, b⟩
    by_cases ha : a = k
    · subst ha
      simp [aset, alookup, Ne.symm h]
    · simp [aset, alookup, ha, ih]

theorem adel_cons {α : Type} [DecidableEq α] {β : Type} (k a : α) (b : β)
    (rest : List (α × β)) :
    adel k ((a, b) :: rest) =
      if a = k then adel k rest else (a, b) :: adel k rest := by
  by_cases ha : a = k <;> simp [adel, List.filter_cons, ha]

theorem alookup_adel_self {α : Type} [DecidableEq α] {β : Type} (k : α)
    (l : List (α × β)) : alookup k (adel k l) = none := by
  induction l with
  | nil => simp [adel, alookup]
  | cons p rest ih =>
    rcases p with ⟨a, b⟩
    rw [adel_cons]
    by_cases ha : a = k
    · simp [ha, ih]
    · simp [ha, alookup, ih]

theorem alookup_adel_ne {α : Type} [DecidableEq α] {β : Type} {k k' : α}
    (l : List (α × β)) (h : k' ≠ k) :
    alookup k' (adel k l) = alookup k' l := by
  induction l with
  | nil => simp [adel, alookup]
  | cons p rest ih =>
    rcases p with ⟨a, b⟩
    rw [adel_cons]
    by_cases ha : a = k
    · subst ha
      simp [alookup, Ne.symm h, ih]
    · simp [ha, alookup, ih]

/-! ## The chunk-sequence invariant

The ghost `seq` fields of a session's recorded chunks always read
`0, 1, 2, ...` in list order, `currentChunk` is the next index, and each
`chunkId` is the one `processChunk` builds from `seq`. -/

def StreamInv (rtaId : String) (st : StreamState) : Prop :=
  st.chunks.map ChunkRecord.seq = List.range st.currentChunk ∧
  ∀ c ∈ st.chunks, c.chunkId = chunkIdOf rtaId c.seq

def ChunkerInv (s : ChunkerState) : Prop :=
  ∀ rtaId st, alookup rtaId s.activeStreams = some st → StreamInv rtaId st

theorem emptyChunker_inv : ChunkerInv emptyChunker := by
  intro r st hl
  simp [emptyChunker, alookup] at hl

theorem startStream_inv {s : ChunkerState} (r seed : String) (now : Nat)
    (hasAudio : Bool) (h : ChunkerInv s) :
    ChunkerInv (startStream s r seed now hasAudio) := by
  intro r' st hl
  by_cases hr : r' = r
  · subst hr
    rw [startStream, alookup_aset_self] at hl
    cases hl
    exact ⟨rfl, by intro c hc; cases hc⟩
  · rw [startStream, alookup_aset_ne _ _ hr] at hl
    exact h r' st hl

theorem handleParticipantJoin_activeStreams (s : ChunkerState)
    (r a : String) :
    (handleParticipantJoin s r a).1.activeStreams = s.activeStreams := by
  unfold handleParticipantJoin
  split <;> rfl

theorem processChunkPhase1_ok {s : ChunkerState} {r : String}
    {audioOk : Bool} {p : PendingChunk}
    (hp : processChunkPhase1 s r audioOk = .ok p) :
    ∀ st, alookup r s.activeStreams = some st →
      p.seq = st.currentChunk ∧ p.chunkId = chunkIdOf r st.currentChunk := by
  intro st hst
  unfold processChunkPhase1 at hp
  rw [hst] at hp
  by_cases hact : st.isActive
  · by_cases haud : audioOk ∧ st.hasAudioSource
    · simp only [hact, not_true_eq_false, if_false, haud, Except.ok.injEq,
        if_neg (not_not_intro haud)] at hp
      cases hp
      exact ⟨rfl, rfl⟩
    · simp [hact, haud] at hp
  · simp [hact] at hp

theorem processChunkPhase2_inv {s : ChunkerState} {r : String}
    {p : PendingChunk} (now : Nat) (o : TickOracle) (h : ChunkerInv s)
    (hfit : ∀ st, alookup r s.activeStreams = some st →
      p.seq = st.currentChunk ∧ p.chunkId = chunkIdOf r st.currentChunk) :
    ChunkerInv (processChunkPhase2 s r p now o).1 := by
  unfold processChunkPhase2
  split
  · exact h
  · rename_i st hst
    obtain ⟨hseq, hid⟩ := hfit st hst
    repeat' split
    all_goals try exact h
    intro r' st' hl
    by_cases hr : r' = r
    · subst hr
      rw [alookup_aset_self] at hl
      cases hl
      have hinv := h r' st hst
      refine ⟨?_, ?_⟩
      · simp [pushChunk, List.map_append, hinv.1, hseq, List.range_succ]
      · intro c hc
        simp only [pushChunk] at hc
        rcases List.mem_append.mp hc with hc | hc
        · exact hinv.2 c hc
        · simp at hc
          subst hc
          simpa [hseq] using hid
    · rw [alookup_aset_ne _ _ hr] at hl
      exact h r' st' hl

theorem processChunk_inv {s : ChunkerState} (r : String) (now : Nat)
    (o : TickOracle) (h : ChunkerInv s) :
    ChunkerInv (processChunk s r now o).1 := by
  unfold processChunk
  rcases hp : processChunkPhase1 s r o.audioOk with out | p
  · exact h
  · exact processChunkPhase2_inv now o h (processChunkPhase1_ok hp)

theorem handleChunkFinalize_inv {s : ChunkerState} (r : String)
    (force : Bool) (now : Nat) (o : TickOracle) (h : ChunkerInv s) :
    ChunkerInv (handleChunkFinalize s r force now o).1 := by
  unfold handleChunkFinalize
  split
  · exact h
  · intro r' st' hl
    simp only [purgeSession, stopTimer] at hl
    by_cases hr : r' = r
    · subst hr
      rw [alookup_adel_self] at hl
      cases hl
    · rw [alookup_adel_ne _ hr] at hl
      exact h r' st' hl

theorem applyEvent_inv {s : ChunkerState} (e : Event) (h : ChunkerInv s) :
    ChunkerInv (applyEvent s e) := by
  cases e with
  | start r seed now hasAudio => exact startStream_inv r seed now hasAudio h
  | join r a =>
    simp only [applyEvent]
    intro r' st hl
    rw [handleParticipantJoin_activeStreams] at hl
    exact h r' st hl
  | tick r now o => exact processChunk_inv r now o h
  | finalize r force now o => exact handleChunkFinalize_inv r force now o h

theorem foldl_applyEvent_inv (es : List Event) :
    ∀ s : ChunkerState, ChunkerInv s → ChunkerInv (es.foldl applyEvent s) := by
  induction es with
  | nil => intro s hs; exact hs
  | cons e rest ih =>
    intro s hs
    exact ih (applyEvent s e) (applyEvent_inv e hs)

theorem runEvents_inv (es : List Event) : ChunkerInv (runEvents es) :=
  foldl_applyEvent_inv es emptyChunker emptyChunker_inv

/-! ## Demo session used by concrete witnesses

`"s1"` started at t = 0 with seed `"deadbeef"`, an audio source attached,
and one participant `"a"` joined. -/

def demoSession : ChunkerState :=
  (handleParticipantJoin (startStream emptyChunker "s1" "deadbeef" 0 true)
    "s1" "a").1

/-! ## Claims -/

/-- **C1.** For every session seed, chunk id, and non-empty participant
list, `performSecureVRFRaffle` returns `winner = participants[i]`, where
`i` is the first 4 bytes of the HMAC-SHA256 digest (keyed by the seed,
over the message `chunkId || participants.join("|") || timestamp`) read
as a big-endian unsigned 32-bit integer, modulo `participants.length`;
the returned proof is the full digest rendered as hex. -/
theorem c1_raffle_winner_and_proof (vrfSeeds : List (String × String))
    (rtaId chunkId seed : String) (participants : List String) (now : Nat)
    (hseed : alookup rtaId vrfSeeds = some seed) (hne : participants ≠ []) :
    performSecureVRFRaffle vrfSeeds rtaId chunkId participants now =
      .ok { winner := some (participants.get
              ⟨readUInt32BE (raffleDigest seed chunkId participants now) %
                  participants.length,
                Nat.mod_lt _ (List.length_pos.mpr hne)⟩)
          , vrfProof := toHex (raffleDigest seed chunkId participants now)
          , participants := participants.length
          , randomValue :=
              readUInt32BE (raffleDigest seed chunkId participants now) } := by
  unfold performSecureVRFRaffle
  rw [hseed]
  have hlt : readUInt32BE (raffleDigest seed chunkId participants now) %
      participants.length < participants.length :=
    Nat.mod_lt _ (List.length_pos.mpr hne)
  simp [List.get?_eq_get hlt]

theorem c1_raffle_winner_and_proof_witness :
    alookup "s1" [("s1", "deadbeef")] = some "deadbeef" ∧
    (["a", "b"] : List String) ≠ [] ∧
    winnerOfResult
        (performSecureVRFRaffle [("s1", "deadbeef")] "s1" "s1_0"
          ["a", "b"] 0) = some (some "a") := by
  refine ⟨by decide, by decide, ?_⟩
  rw [c1_raffle_winner_and_proof [("s1", "deadbeef")] "s1" "s1_0" "deadbeef"
    ["a", "b"] 0 (by decide) (by decide)]
  decide

/-- **C2** (code bug).  The claim says a fixed seed, chunk id and
participant list make repeated raffle invocations return the identical
winner.  The code feeds `Date.now().toString()` into the HMAC and does
not record it, so two invocations at different wall-clock milliseconds
produce different digests: with seed `"deadbeef"`, chunk `"s1_0"` and
participants `["a", "b"]`, the call at t = 0 ms selects `"a"` and the
call at t = 3 ms selects `"b"`. -/
theorem c2_raffle_depends_on_wall_clock :
    winnerOfResult
        (performSecureVRFRaffle [("s1", "deadbeef")] "s1" "s1_0"
          ["a", "b"] 0) = some (some "a") ∧
    winnerOfResult
        (performSecureVRFRaffle [("s1", "deadbeef")] "s1" "s1_0"
          ["a", "b"] 3) = some (some "b") ∧
    winnerOfResult
        (performSecureVRFRaffle [("s1", "deadbeef")] "s1" "s1_0"
          ["a", "b"] 0) ≠
      winnerOfResult
        (performSecureVRFRaffle [("s1", "deadbeef")] "s1" "s1_0"
          ["a", "b"] 3) := by
  refine ⟨by decide, by decide, by decide⟩

/-- **C3** counterexample.  The raffle invoked with an empty participant
list does not fail with an `EmptyParticipantSet` error — no such error
exists in the code.  It proceeds and returns a result whose winner is
JS `undefined` (`participants[NaN]`), modelled as `none`. -/
theorem c3_counterexample_empty_raffle_proceeds :
    winnerOfResult
        (performSecureVRFRaffle [("s1", "deadbeef")] "s1" "s1_chunk_0"
          [] 0) = some none := by
  decide

/-- **C3** as amended.  At tick time an empty participant set makes
`processChunk` skip the raffle entirely: the raffle is never invoked,
the state is unchanged (no chunk recorded, no winner, no failure state),
and the tick returns the benign `skippedNoParticipants` outcome rather
than crashing — `performSecureVRFRaffle` itself has no
`EmptyParticipantSet` error path. -/
theorem c3_empty_participants_skips_chunk (s : ChunkerState) (r : String)
    (now : Nat) (o : TickOracle) (st : StreamState)
    (hst : alookup r s.activeStreams = some st)
    (hact : st.isActive = true) (haud : st.hasAudioSource = true)
    (hok : o.audioOk = true) (hemp : snapshotOf s r = []) :
    processChunk s r now o = (s, .skippedNoParticipants) := by
  unfold processChunk processChunkPhase1 processChunkPhase2
  rw [hst]
  simp [hact, haud, hok, hst, hemp]

theorem c3_empty_participants_skips_chunk_witness :
    (alookup "s1" (startStream emptyChunker "s1" "deadbeef" 0
        true).activeStreams).isSome = true ∧
    snapshotOf (startStream emptyChunker "s1" "deadbeef" 0 true) "s1" = [] ∧
    processChunk (startStream emptyChunker "s1" "deadbeef" 0 true) "s1"
        60000 { audioOk := true, recordOk := true, saveOk := true } =
      (startStream emptyChunker "s1" "deadbeef" 0 true,
        .skippedNoParticipants) := by
  refine ⟨by decide, by decide, ?_⟩
  exact c3_empty_participants_skips_chunk
    (startStream emptyChunker "s1" "deadbeef" 0 true) "s1" 60000
    { audioOk := true, recordOk := true, saveOk := true }
    { rtaId := "s1", startTime := 0, currentChunk := 0, chunks := []
    , isActive := true, hasAudioSource := true }
    (by decide) (by decide) (by decide) (by decide) (by decide)

/-- **C4** counterexample.  A second raffle attempt on the already
raffled chunk `"s1_chunk_0"` is not rejected: no `AlreadyRaffled` error
exists in the code, `performSecureVRFRaffle` is stateless and
re-executes, and here the re-execution (at t = 4 ms, after a first
raffle at t = 0 ms selected `"a"`) assigns the second winner `"b"` to
the same chunk. -/
theorem c4_counterexample_second_raffle_not_rejected :
    winnerOfResult
        (performSecureVRFRaffle [("s1", "deadbeef")] "s1" "s1_chunk_0"
          ["a", "b"] 0) = some (some "a") ∧
    winnerOfResult
        (performSecureVRFRaffle [("s1", "deadbeef")] "s1" "s1_chunk_0"
          ["a", "b"] 4) = some (some "b") := by
  refine ⟨by decide, by decide⟩

/-- **C4** as amended.  The code has no `AlreadyRaffled` rejection; what
prevents duplicate ownership in the sequential tick flow is only that
`processChunk` increments `currentChunk` after each recorded chunk, so
every recorded chunk of a session carries a distinct sequence index (and
hence a distinct chunk id): in every reachable state the recorded
sequence indices are duplicate-free. -/
theorem c4_recorded_chunks_have_distinct_ids (es : List Event)
    (r : String) (st : StreamState)
    (hst : alookup r (runEvents es).activeStreams = some st) :
    (st.chunks.map ChunkRecord.seq).Nodup ∧
    ∀ c ∈ st.chunks, c.chunkId = chunkIdOf r c.seq := by
  have h := runEvents_inv es r st hst
  refine ⟨?_, h.2⟩
  rw [h.1]
  exact List.nodup_range _

theorem c4_recorded_chunks_have_distinct_ids_witness :
    alookup "s1" (runEvents
        [.start "s1" "deadbeef" 0 true, .join "s1" "a",
         .tick "s1" 60000 { audioOk := true, recordOk := true, saveOk := true }]).activeStreams =
      some { rtaId := "s1", startTime := 0, currentChunk := 1
           , chunks := [{ chunkId := "s1_chunk_0", timestamp := 60000
                        , owner := some "a", participantCount := 1, seq := 0 }]
           , isActive := true, hasAudioSource := true } ∧
    ([0] : List Nat).Nodup := by
  refine ⟨by decide, ?_⟩
  have h := c4_recorded_chunks_have_distinct_ids
    [.start "s1" "deadbeef" 0 true, .join "s1" "a",
     .tick "s1" 60000 { audioOk := true, recordOk := true, saveOk := true }]
    "s1"
    { rtaId := "s1", startTime := 0, currentChunk := 1
    , chunks := [{ chunkId := "s1_chunk_0", timestamp := 60000
                 , owner := some "a", participantCount := 1, seq := 0 }]
    , isActive := true, hasAudioSource := true } (by decide)
  exact h.1

theorem finalDurationOf_eq (e : Nat) :
    finalDurationOf e = e % chunkDurationMs := by
  unfold finalDurationOf chunkDurationMs
  omega

/-- With the session present and the audio read succeeding,
`createFinalPartialChunk` always reports one chunk of the requested
duration (its raffle and recording sub-steps cannot prevent that: their
failures are caught inside the function). -/
theorem createFinalPartialChunk_some (s : ChunkerState) (r : String)
    (duration now : Nat) (o : TickOracle) (st : StreamState)
    (hst : alookup r s.activeStreams = some st)
    (haud : st.hasAudioSource = true) (hok : o.audioOk = true) :
    ∃ fc, createFinalPartialChunk s r duration now o = some fc ∧
      fc.durationMs = duration := by
  unfold createFinalPartialChunk
  simp only [hst, hok, haud, and_self, not_true_eq_false, if_false,
    Bool.not_eq_true]
  split
  · exact ⟨_, rfl, rfl⟩
  · split
    · exact ⟨_, rfl, rfl⟩
    · exact ⟨_, rfl, rfl⟩

/-- **C5.** For every active session, finalize with
`forceFinalChunk = true` stops the chunk timer and — letting `e` be the
elapsed milliseconds since session start — synthesizes exactly one
trailing partial chunk, of duration `e % chunkDurationMs`, if and only
if that remainder exceeds 1000 ms, before the session's state is
removed.  (The audio read must succeed for the chunk to be created;
`hok`/`haud` supply that.) -/
theorem c5_finalize_synthesizes_trailing_chunk (s : ChunkerState)
    (r : String) (now : Nat) (o : TickOracle) (st : StreamState)
    (hst : alookup r s.activeStreams = some st)
    (haud : st.hasAudioSource = true) (hok : o.audioOk = true) :
    r ∉ (handleChunkFinalize s r true now o).1.chunkTimers ∧
    alookup r (handleChunkFinalize s r true now o).1.activeStreams = none ∧
    ((finalReportOf (handleChunkFinalize s r true now o)).isSome ↔
      1000 < (now - st.startTime) % chunkDurationMs) ∧
    ∀ fc, finalReportOf (handleChunkFinalize s r true now o) = some fc →
      fc.durationMs = (now - st.startTime) % chunkDurationMs := by
  have hstop : alookup r (stopTimer s r).activeStreams = some st := hst
  unfold handleChunkFinalize
  simp only [hst, if_true, finalDurationOf_eq]
  refine ⟨?_, ?_, ?_, ?_⟩
  · simp [purgeSession, stopTimer, List.mem_filter]
  · simp only [purgeSession, stopTimer]
    exact alookup_adel_self r s.activeStreams
  · by_cases hgt : 1000 < (now - st.startTime) % chunkDurationMs
    · obtain ⟨fc, hfc, _⟩ := createFinalPartialChunk_some (stopTimer s r) r
        ((now - st.startTime) % chunkDurationMs) now o st hstop haud hok
      simp [finalReportOf, hgt, hfc]
    · simp [finalReportOf, hgt]
  · intro fc hfc
    by_cases hgt : 1000 < (now - st.startTime) % chunkDurationMs
    · obtain ⟨fc', hfc', hdur⟩ := createFinalPartialChunk_some (stopTimer s r)
        r ((now - st.startTime) % chunkDurationMs) now o st hstop haud hok
      simp only [finalReportOf, hgt, if_true] at hfc
      rw [hfc'] at hfc
      cases hfc
      exact hdur
    · simp [finalReportOf, hgt] at hfc

theorem c5_finalize_synthesizes_trailing_chunk_witness :
    alookup "s1" demoSession.activeStreams =
      some { rtaId := "s1", startTime := 0, currentChunk := 0, chunks := []
           , isActive := true, hasAudioSource := true } ∧
    (1000 < (90000 - 0) % chunkDurationMs) ∧
    (finalReportOf (handleChunkFinalize demoSession "s1" true 90000
        { audioOk := true, recordOk := true, saveOk := true })).isSome = true ∧
    ∀ fc, finalReportOf (handleChunkFinalize demoSession "s1" true 90000
        { audioOk := true, recordOk := true, saveOk := true }) = some fc →
      fc.durationMs = 30000 := by
  have h := c5_finalize_synthesizes_trailing_chunk demoSession "s1" 90000
    { audioOk := true, recordOk := true, saveOk := true }
    { rtaId := "s1", startTime := 0, currentChunk := 0, chunks := []
    , isActive := true, hasAudioSource := true }
    (by decide) (by decide) (by decide)
  refine ⟨by decide, by decide, ?_, ?_⟩
  · exact h.2.2.1.mpr (by decide)
  · intro fc hfc
    exact h.2.2.2 fc hfc

/-- **C6** counterexample.  `processChunk` snapshots the participant set
only after the `await createAudioChunk(...)` suspension.  Session
`"s1"` has sole participant `"a"` when the tick for chunk 0 fires
(phase 1); participant `"b"` joins during the audio `await`; phase 2
then snapshots `["a", "b"]`: the post-tick joiner appears in the
chunk's snapshot (`participantCount = 2`) and raffle inputs (indeed
`"b"` wins this raffle), whereas an uninterrupted tick on the pre-join
state records `participantCount = 1`. -/
theorem c6_counterexample_join_after_tick_in_snapshot :
    processChunkPhase1 demoSession "s1" true =
      .ok { chunkId := "s1_chunk_0", seq := 0 } ∧
    (chunksOf (processChunkPhase2
        (handleParticipantJoin demoSession "s1" "b").1 "s1"
        { chunkId := "s1_chunk_0", seq := 0 } 60001
        { audioOk := true, recordOk := true, saveOk := true }).1
      "s1").map (fun c => (c.participantCount, c.owner)) =
      [(2, some "b")] ∧
    (chunksOf (processChunk demoSession "s1" 60001
        { audioOk := true, recordOk := true, saveOk := true }).1
      "s1").map (fun c => (c.participantCount, c.owner)) =
      [(1, some "a")] := by
  refine ⟨by decide, by decide, by decide⟩

/-- **C6** as amended.  The participant snapshot is a point-in-time copy
taken at the `Array.from` call — after the audio-extraction `await`, not
at tick fire.  Once taken (and in particular once the chunk's record is
pushed), later joins never retroactively affect it: a join mutates only
the participant set and leaves every existing chunk record of every
session unchanged. -/
theorem c6_join_preserves_recorded_chunks (s : ChunkerState)
    (r j a : String) :
    chunksOf (handleParticipantJoin s j a).1 r = chunksOf s r := by
  unfold chunksOf
  rw [handleParticipantJoin_activeStreams]

/-- **C7.** Within every session, in every reachable state, the sequence
indices of the recorded chunks read `0, 1, ..., k-1` in record order
(strictly increasing, no gaps, consecutive from 0, assigned in tick
order), and the next index to assign is `currentChunk = k`. -/
theorem c7_chunk_indices_strictly_increasing_no_gaps (es : List Event)
    (r : String) (st : StreamState)
    (hst : alookup r (runEvents es).activeStreams = some st) :
    st.chunks.map ChunkRecord.seq = List.range st.chunks.length ∧
    st.currentChunk = st.chunks.length := by
  have h := (runEvents_inv es r st hst).1
  have hlen : st.chunks.length = st.currentChunk := by
    have hmap := congrArg List.length h
    simpa using hmap
  refine ⟨?_, hlen.symm⟩
  rw [h, hlen]

theorem c7_chunk_indices_strictly_increasing_no_gaps_witness :
    alookup "s1" (runEvents
        [.start "s1" "deadbeef" 0 true, .join "s1" "a",
         .tick "s1" 60000 { audioOk := true, recordOk := true, saveOk := true },
         .tick "s1" 120000 { audioOk := true, recordOk := true, saveOk := true }]).activeStreams =
      some { rtaId := "s1", startTime := 0, currentChunk := 2
           , chunks := [{ chunkId := "s1_chunk_0", timestamp := 60000
                        , owner := some "a", participantCount := 1, seq := 0 },
                        { chunkId := "s1_chunk_1", timestamp := 120000
                        , owner := some "a", participantCount := 1, seq := 1 }]
           , isActive := true, hasAudioSource := true } ∧
    ([0, 1] : List Nat) = List.range 2 := by
  refine ⟨by decide, ?_⟩
  have h := c7_chunk_indices_strictly_increasing_no_gaps
    [.start "s1" "deadbeef" 0 true, .join "s1" "a",
     .tick "s1" 60000 { audioOk := true, recordOk := true, saveOk := true },
     .tick "s1" 120000 { audioOk := true, recordOk := true, saveOk := true }]
    "s1"
    { rtaId := "s1", startTime := 0, currentChunk := 2
    , chunks := [{ chunkId := "s1_chunk_0", timestamp := 60000
                 , owner := some "a", participantCount := 1, seq := 0 },
                 { chunkId := "s1_chunk_1", timestamp := 120000
                 , owner := some "a", participantCount := 1, seq := 1 }]
    , isActive := true, hasAudioSource := true } (by decide)
  exact h.1

/-- Every run of `processChunk` either leaves the state untouched or
reports `processed`: the body-wide `try`/`catch` turns every collaborator
failure into a logged early exit. -/
theorem processChunk_cases (s : ChunkerState) (r : String) (now : Nat)
    (o : TickOracle) :
    (processChunk s r now o).1 = s ∨
    (processChunk s r now o).2 = .processed := by
  unfold processChunk processChunkPhase1 processChunkPhase2
  repeat' split
  all_goals simp

/-- **C8.** `processChunk`'s whole body sits in one
`try { ... } catch (error) { console.error(...) }`, so a failing tick
never propagates an error out of the tick handler: it is a total
function whose failing runs leave the session state exactly as it was,
and any later tick then behaves exactly as if the failed tick had not
fired — a single failed chunk never prevents subsequent ticks from
processing later chunks. -/
theorem c8_failed_tick_never_halts_later_ticks (s : ChunkerState)
    (r : String) (n1 : Nat) (o1 : TickOracle)
    (h : (processChunk s r n1 o1).2 ≠ .processed) :
    (processChunk s r n1 o1).1 = s ∧
    ∀ n2 o2, processChunk (processChunk s r n1 o1).1 r n2 o2 =
      processChunk s r n2 o2 := by
  have hs : (processChunk s r n1 o1).1 = s :=
    (processChunk_cases s r n1 o1).resolve_right h
  exact ⟨hs, fun n2 o2 => by rw [hs]⟩

theorem c8_failed_tick_never_halts_later_ticks_witness :
    (processChunk demoSession "s1" 60000
        { audioOk := true, recordOk := false, saveOk := true }).2 ≠
      .processed ∧
    (processChunk demoSession "s1" 60000
        { audioOk := true, recordOk := false, saveOk := true }).1 =
      demoSession ∧
    processChunk (processChunk demoSession "s1" 60000
        { audioOk := true, recordOk := false, saveOk := true }).1 "s1"
        120000 { audioOk := true, recordOk := true, saveOk := true } =
      processChunk demoSession "s1" 120000
        { audioOk := true, recordOk := true, saveOk := true } := by
  have h := c8_failed_tick_never_halts_later_ticks demoSession "s1" 60000
    { audioOk := true, recordOk := false, saveOk := true } (by decide)
  exact ⟨by decide, h.1, h.2 120000
    { audioOk := true, recordOk := true, saveOk := true }⟩

/-- **C9** counterexample.  An unrecoverable error during raffle
recording (the `recordChunkOwnership` ledger call fails for chunk
`"s1_chunk_0"`) does *not* transition any chunk record to a Failed
state: `processChunk` catches the error, only logs it, and leaves the
session state exactly as before — the chunk has no record at all, and
no error detail is retained anywhere in chunker state. -/
theorem c9_counterexample_record_failure_leaves_no_failed_record :
    (processChunk demoSession "s1" 60000
        { audioOk := true, recordOk := false, saveOk := true }).2 =
      .recordFailed ∧
    (processChunk demoSession "s1" 60000
        { audioOk := true, recordOk := false, saveOk := true }).1 =
      demoSession ∧
    chunksOf (processChunk demoSession "s1" 60000
        { audioOk := true, recordOk := false, saveOk := true }).1 "s1" =
      [] := by
  refine ⟨by decide, by decide, by decide⟩

/-- **C9** as amended.  On the storage-dispatch path, an upload failure
at any step of `processSynapseUploadAsync` transitions the upload record
to status `"failed"` with the error message retained on the record. -/
theorem c9_upload_failure_sets_failed_status
    (uploads : List (String × UploadState)) (uploadId : String)
    (st : UploadState) (step : UploadStep) (m : String)
    (hst : alookup uploadId uploads = some st)
    (hstep : stepError step = some m) :
    alookup uploadId (processSynapseUploadAsync uploads uploadId step) =
      some { st with status := "failed", error := some m } := by
  unfold processSynapseUploadAsync
  simp only [hst]
  have happ : applyUploadStep st step =
      { st with status := "failed", error := some m } := by
    cases step <;> simp only [stepError, Option.some.injEq] at hstep <;>
      simp [applyUploadStep, stepError, hstep]
  rw [happ, alookup_aset_self]

theorem c9_upload_failure_sets_failed_status_witness :
    alookup "u1" [("u1",
        ({ status := "processing", error := none, filecoinCid := none } :
          UploadState))] =
      some { status := "processing", error := none, filecoinCid := none } ∧
    stepError (.uploadThrew "boom") = some "boom" ∧
    alookup "u1" (processSynapseUploadAsync
        [("u1", { status := "processing", error := none
                , filecoinCid := none })] "u1" (.uploadThrew "boom")) =
      some { status := "failed", error := some "boom"
           , filecoinCid := none } := by
  refine ⟨by decide, by decide, ?_⟩
  exact c9_upload_failure_sets_failed_status
    [("u1", { status := "processing", error := none, filecoinCid := none })]
    "u1" { status := "processing", error := none, filecoinCid := none }
    (.uploadThrew "boom") "boom" (by decide) (by decide)

/-- **C10.** For every session present in `activeStreams`, finalize
completes with the success payload and fully purges the session —
its `activeStreams`, `participants` and `vrfSeeds` entries are removed
and its timer cancelled — for *every* collaborator oracle, including
ones on which the trailing-chunk creation, raffle or ownership
recording fail: `createFinalPartialChunk` catches all of its own errors
and never rethrows, so the finalize response still reports success. -/
theorem c10_finalize_purges_even_when_final_chunk_fails
    (s : ChunkerState) (r : String) (force : Bool) (now : Nat)
    (o : TickOracle) (st : StreamState)
    (hst : alookup r s.activeStreams = some st) :
    finalizeSucceeded (handleChunkFinalize s r force now o) = true ∧
    alookup r (handleChunkFinalize s r force now o).1.activeStreams =
      none ∧
    alookup r (handleChunkFinalize s r force now o).1.participants =
      none ∧
    alookup r (handleChunkFinalize s r force now o).1.vrfSeeds = none ∧
    r ∉ (handleChunkFinalize s r force now o).1.chunkTimers := by
  unfold handleChunkFinalize
  simp only [hst]
  refine ⟨rfl, ?_, ?_, ?_, ?_⟩
  · simp only [purgeSession, stopTimer]
    exact alookup_adel_self r s.activeStreams
  · simp only [purgeSession, stopTimer]
    exact alookup_adel_self r s.participants
  · simp only [purgeSession, stopTimer]
    exact alookup_adel_self r s.vrfSeeds
  · simp [purgeSession, stopTimer, List.mem_filter]

theorem c10_finalize_purges_even_when_final_chunk_fails_witness :
    alookup "s1" demoSession.activeStreams =
      some { rtaId := "s1", startTime := 0, currentChunk := 0, chunks := []
           , isActive := true, hasAudioSource := true } ∧
    finalizeSucceeded (handleChunkFinalize demoSession "s1" true 90000
        { audioOk := false, recordOk := false, saveOk := false }) = true ∧
    alookup "s1" (handleChunkFinalize demoSession "s1" true 90000
        { audioOk := false, recordOk := false, saveOk := false
        }).1.activeStreams = none := by
  have h := c10_finalize_purges_even_when_final_chunk_fails demoSession
    "s1" true 90000 { audioOk := false, recordOk := false, saveOk := false }
    { rtaId := "s1", startTime := 0, currentChunk := 0, chunks := []
    , isActive := true, hasAudioSource := true } (by decide)
  exact ⟨by decide, h.1, h.2.1⟩

end VibesFlow
